import Mathlib

/-!
Verification development for the Mattermost channel-membership snapshot
collector (`src/main.py`).  The script takes a point-in-time snapshot of
which users are members of which channels, resolves usernames and presence
statuses in two bulk calls, and writes the records to a TimescaleDB table
in commit batches.

The embedding below models the source faithfully:
* the external Mattermost driver and the PostgreSQL connection become an
  explicit environment (`Env`) and an oracle of database step outcomes
  (`DbOracle`);
* Python exceptions become `Except` results;
* side effects that the claims talk about (commits, rollbacks, log lines,
  API calls, sleeps) become explicit event traces.
-/

namespace Warrn

/-- A database error as seen through psycopg: an SQLSTATE code plus the
error message text (`e.diag.sqlstate` and `str(e)` in the source). -/
structure PgError where
  sqlstate : String
  msg : String
deriving DecidableEq, Repr

/-- Does the character list `l` start with `p`? (helper for the substring
tests the source performs on error messages). -/
def charsStartWith : List Char → List Char → Bool
  | [], _ => true
  | _ :: _, [] => false
  | p :: ps, c :: cs => p == c && charsStartWith ps cs

/-- Does the character list contain `pat` as a contiguous run? -/
def charsHaveSub (pat : List Char) : List Char → Bool
  | [] => charsStartWith pat []
  | c :: cs => charsStartWith pat (c :: cs) || charsHaveSub pat cs

/-- Python's `pat in s` substring test. -/
def strHasSub (s pat : String) : Bool :=
  charsHaveSub pat.data s.data

/-- Python's `str.lower()` (character-wise lowering). -/
def lowerStr (s : String) : String :=
  String.mk (s.data.map Char.toLower)

/-- The source's test for "the table is already a hypertable": SQLSTATE
42P07, or the lowered message containing the literal text
(`main.py` lines 95-98). -/
def isAlreadyHypertable (e : PgError) : Bool :=
  e.sqlstate == "42P07" || strHasSub (lowerStr e.msg) "already a hypertable"

/-- The source's test for "a compression policy already exists": SQLSTATE
42710, or the lowered message containing the literal text
(`main.py` line 135). -/
def isPolicyExists (e : PgError) : Bool :=
  e.sqlstate == "42710" || strHasSub (lowerStr e.msg) "already has a compression policy"

/-- The provisioning steps of `ensure_table_exists`. -/
inductive Step
  | extension
  | createTable
  | hypertable
  | compression
  | policy
deriving DecidableEq, Repr

/-- Observable database-side effects of `ensure_table_exists`. -/
inductive DbEvent
  | logInfo (s : Step)
  | logWarning (s : Step)
  | logError (s : Step)
  | rollback (s : Step)
  | commitEv
deriving DecidableEq, Repr

/-- Outcome oracle for the five DDL statements `ensure_table_exists`
executes: `none` means the statement succeeds, `some e` means it raises
`e`. -/
structure DbOracle where
  extensionRes : Option PgError
  createTableRes : Option PgError
  hypertableRes : Option PgError
  compressionRes : Option PgError
  policyRes : Option PgError
deriving DecidableEq, Repr

/-- The tail of `ensure_table_exists` after hypertable conversion has been
settled: compression settings (`main.py` 107-121), compression policy
(125-139), final commit (141). -/
def provisionTail (db : DbOracle) (evs : List DbEvent) : List DbEvent × Except PgError Unit :=
  let evs := evs ++ (match db.compressionRes with
    | none => [DbEvent.logInfo Step.compression]
    | some _ => [DbEvent.logWarning Step.compression, DbEvent.rollback Step.compression])
  let evs := evs ++ (match db.policyRes with
    | none => [DbEvent.logInfo Step.policy]
    | some e =>
      if isPolicyExists e then [DbEvent.logInfo Step.policy]
      else [DbEvent.logWarning Step.policy, DbEvent.rollback Step.policy])
  (evs ++ [DbEvent.commitEv], Except.ok ())

/-- `ensure_table_exists` (`main.py` 51-141): extension creation is
non-fatal (warn + rollback); table creation propagates any error;
hypertable conversion tolerates only "already a hypertable" and re-raises
anything else after logging and rolling back; compression settings and
policy errors are absorbed.  Returns the event trace together with either
success or the re-raised error. -/
def ensure_table_exists (db : DbOracle) : List DbEvent × Except PgError Unit :=
  let evs : List DbEvent := match db.extensionRes with
    | none => [DbEvent.logInfo Step.extension]
    | some _ => [DbEvent.logWarning Step.extension, DbEvent.rollback Step.extension]
  match db.createTableRes with
  | some e => (evs, Except.error e)
  | none =>
    let evs := evs ++ [DbEvent.logInfo Step.createTable]
    match db.hypertableRes with
    | none => provisionTail db (evs ++ [DbEvent.logInfo Step.hypertable])
    | some e =>
      if isAlreadyHypertable e then
        provisionTail db (evs ++ [DbEvent.logInfo Step.hypertable])
      else
        (evs ++ [DbEvent.logError Step.hypertable, DbEvent.rollback Step.hypertable],
         Except.error e)

/-- Did the hypertable-conversion step succeed or fail only with a
tolerated "already a hypertable" error? -/
def hypertableTolerated (db : DbOracle) : Bool :=
  match db.hypertableRes with
  | none => true
  | some e => isAlreadyHypertable e

/-- A channel-member entry as used by the source (`member['user_id']`). -/
structure Member where
  user_id : String
deriving DecidableEq, Repr

/-- A team (`team['id']`, `team['name']`). -/
structure Team where
  id : String
  name : String
deriving DecidableEq, Repr

/-- A channel: `id` is always present; `display_name` and `name` are
optional dictionary keys (`channel.get(...)` in the source). -/
structure Channel where
  id : String
  display_name : Option String
  name : Option String
deriving DecidableEq, Repr

/-- One entry of `driver.status.get_user_statuses_by_id`. -/
structure StatusEntry where
  user_id : String
  status : String
deriving DecidableEq, Repr

/-- One entry of `driver.users.get_users_by_ids`. -/
structure UserEntry where
  id : String
  username : String
deriving DecidableEq, Repr

/-- The tuple appended to `records_to_process_later`
(`(now, team_id, team_name, channel_id, channel_name, user_id)`). -/
structure CollectedRecord where
  time : Nat
  team_id : String
  team_name : String
  channel_id : String
  channel_name : String
  user_id : String
deriving DecidableEq, Repr

/-- One row of the INSERT at `main.py` 231-234. -/
structure DbRow where
  time : Nat
  team_id : String
  team_name : String
  channel_id : String
  channel_name : String
  user_id : String
  username : String
  status : String
deriving DecidableEq, Repr

/-- A transport/API error raised by the Mattermost driver. -/
abbrev ApiErr := String

/-- The external Mattermost driver, as consumed by `main`:
`get_channels_for_user`, the whole-channel member listing
(`get_all_channel_members(driver, channel_id)`, whose paginated internals
are modelled separately by `get_all_channel_members` below),
`get_user_statuses_by_id` and `get_users_by_ids`.  Every call may raise. -/
structure Env where
  listChannels : String → Except ApiErr (List Channel)
  listMembers : String → Except ApiErr (List Member)
  getStatuses : List String → Except ApiErr (List StatusEntry)
  getUsers : List String → Except ApiErr (List UserEntry)

/- ### The rate-limited paginator (`get_all_channel_members`, main.py 143-154) -/

/-- One turn of the `while True` loop: fetch the current page, stop on an
empty batch, otherwise extend and advance the page.  `fuel` bounds the
number of iterations so the function is total; every theorem about it
either supplies ample fuel or assumes an empty page exists within fuel.
The second component counts the fetch calls issued. -/
def get_all_channel_members_aux (fetch : Nat → List Member) : Nat → Nat → List Member × Nat
  | 0, _ => ([], 0)
  | fuel + 1, page =>
    let members := fetch page
    if members.isEmpty then ([], 1)
    else
      let rest := get_all_channel_members_aux fetch fuel (page + 1)
      (members ++ rest.1, rest.2 + 1)

/-- `get_all_channel_members`: start at page 0, page size fixed by the
call site, loop until an empty batch. -/
def get_all_channel_members (fetch : Nat → List Member) (fuel : Nat) : List Member × Nat :=
  get_all_channel_members_aux fetch fuel 0

/- ### The snapshot collector (`main`, main.py 164-200) -/

/-- Python's `a or b` on an optional string: the empty string is falsy,
so it falls through to `b`. -/
def pyOrStr (a : Option String) (b : String) : String :=
  match a with
  | some s => if s = "" then b else s
  | none => b

/-- `channel.get('display_name') or channel.get('name', 'unknown')`
(main.py 183). -/
def channelNameOf (c : Channel) : String :=
  pyOrStr c.display_name (match c.name with | some n => n | none => "unknown")

/-- Set union in list form, used for `all_user_ids_globally.update(...)`:
keep `acc` and append the members of `ids` not already present. -/
def listUnion (acc ids : List String) : List String :=
  acc ++ ids.filter (fun i => !(acc.contains i))

/-- Process one channel (main.py 180-200): list all members (any error
skips the channel with no output), form the set of distinct user ids,
skip the channel if it is empty, otherwise emit one placeholder record
per distinct user id plus the ids contributed to the global user set. -/
def collectChannel (env : Env) (now : Nat) (team : Team) (c : Channel) :
    List CollectedRecord × List String :=
  match env.listMembers c.id with
  | Except.error _ => ([], [])
  | Except.ok members =>
    let ids := (members.map Member.user_id).dedup
    if ids = [] then ([], [])
    else
      (ids.map (fun uid =>
        { time := now, team_id := team.id, team_name := team.name,
          channel_id := c.id, channel_name := channelNameOf c, user_id := uid }),
       ids)

/-- The `for channel in channels` loop, accumulating records and the
global user-id set. -/
def collectChannels (env : Env) (now : Nat) (team : Team) :
    List Channel → List CollectedRecord × List String
  | [] => ([], [])
  | c :: cs =>
    let p := collectChannel env now team c
    let q := collectChannels env now team cs
    (p.1 ++ q.1, listUnion p.2 q.2)

/-- Process one team (main.py 169-200): fetch its channel list; any error
skips the whole team with no output. -/
def collectTeam (env : Env) (now : Nat) (team : Team) :
    List CollectedRecord × List String :=
  match env.listChannels team.id with
  | Except.error _ => ([], [])
  | Except.ok channels => collectChannels env now team channels

/-- The `for team in teams` loop: all collected records together with the
global user-id set `all_user_ids_globally`. -/
def collect (env : Env) (now : Nat) : List Team → List CollectedRecord × List String
  | [] => ([], [])
  | t :: ts =>
    let p := collectTeam env now t
    let q := collect env now ts
    (p.1 ++ q.1, listUnion p.2 q.2)

/- ### The identity/status resolver (main.py 202-218) -/

/-- API calls and sleeps issued by the resolver. -/
inductive ApiEvent
  | statusCall (ids : List String)
  | sleepEv
  | usersCall (ids : List String)
deriving DecidableEq, Repr

/-- Python `d.get(k, default)` for a dict built by a comprehension over
`pairs` (later pairs overwrite earlier ones, hence the reverse). -/
def dictGet (pairs : List (String × String)) (k d : String) : String :=
  match pairs.reverse.lookup k with
  | some v => v
  | none => d

/-- The resolution phase: skip entirely when the global user set is empty;
otherwise issue the bulk status call, sleep, issue the bulk users call,
and build the two dictionaries.  If either call raises, both dictionaries
stay empty (they are assigned only after both calls succeed).  Returns
the call trace, the `user_id_to_username` pairs and the
`user_id_to_status` pairs. -/
def resolveUsers (env : Env) (ids : List String) :
    List ApiEvent × List (String × String) × List (String × String) :=
  if ids.isEmpty then ([], [], [])
  else
    match env.getStatuses ids with
    | Except.error _ => ([ApiEvent.statusCall ids], [], [])
    | Except.ok statuses =>
      match env.getUsers ids with
      | Except.error _ =>
        ([ApiEvent.statusCall ids, ApiEvent.sleepEv, ApiEvent.usersCall ids], [], [])
      | Except.ok users =>
        ([ApiEvent.statusCall ids, ApiEvent.sleepEv, ApiEvent.usersCall ids],
         users.map (fun u => (u.id, u.username)),
         statuses.map (fun s => (s.user_id, s.status)))

/- ### The batched writer (main.py 220-244) -/

/-- Observable write-phase effects: individual INSERTs and commits. -/
inductive WriteEvent
  | insert (row : DbRow)
  | commitW
deriving DecidableEq, Repr

/-- Enrich one collected record with resolved username and status,
defaulting to the `"unknown"` sentinel (main.py 226-234). -/
def enrich (um sm : List (String × String)) (r : CollectedRecord) : DbRow :=
  { time := r.time, team_id := r.team_id, team_name := r.team_name,
    channel_id := r.channel_id, channel_name := r.channel_name,
    user_id := r.user_id,
    username := dictGet um r.user_id "unknown",
    status := dictGet sm r.user_id "unknown" }

/-- The `for record_data in records_to_process_later` loop with the
running `processed_count` counter: insert each row, and commit whenever
the counter is a multiple of the batch size (main.py 225-238). -/
def write_loop (B : Nat) (um sm : List (String × String)) :
    List CollectedRecord → Nat → List WriteEvent
  | [], _ => []
  | r :: rs, count =>
    let row := enrich um sm r
    let count := count + 1
    if count % B == 0 then
      WriteEvent.insert row :: WriteEvent.commitW :: write_loop B um sm rs count
    else
      WriteEvent.insert row :: write_loop B um sm rs count

/-- The whole write phase: run the loop, then issue the final commit for
a non-empty remainder (main.py 240-242). -/
def write_phase (B : Nat) (um sm : List (String × String))
    (records : List CollectedRecord) : List WriteEvent :=
  let evs := write_loop B um sm records 0
  let n := records.length
  if 0 < n ∧ n % B ≠ 0 then evs ++ [WriteEvent.commitW] else evs

/-- Is this event a commit? -/
def isCommitEv : WriteEvent → Bool
  | WriteEvent.commitW => true
  | WriteEvent.insert _ => false

/-- Number of commits in a write trace. -/
def countCommits (evs : List WriteEvent) : Nat :=
  evs.countP isCommitEv

/-- The rows actually inserted, in order. -/
def insertedRows (evs : List WriteEvent) : List DbRow :=
  evs.filterMap (fun ev =>
    match ev with
    | WriteEvent.insert r => some r
    | WriteEvent.commitW => none)

/-- The collection-to-write pipeline of `main` (main.py 156-244), with the
snapshot instant `now`, the team list and the batch size as inputs:
collect all records and the global user set, resolve once, then write. -/
def runMain (env : Env) (now : Nat) (teams : List Team) (B : Nat) : List WriteEvent :=
  let rg := collect env now teams
  let rum := resolveUsers env rg.2
  write_phase B rum.2.1 rum.2.2 rg.1

/-! ### Concrete fixtures used to instantiate the theorems -/

/-- A fetch function describing a channel with 250 members under page
size 200: page 0 holds 200 entries, page 1 holds 50, all later pages are
empty. -/
def fetch250 : Nat → List Member :=
  fun p =>
    if p = 0 then List.replicate 200 { user_id := "m" }
    else if p = 1 then List.replicate 50 { user_id := "m" }
    else []

/-- A fetch function for a channel whose only member arrives on page 0. -/
def fetchOne : Nat → List Member :=
  fun p => if p = 0 then [{ user_id := "u1" }] else []

/-- A happy-path driver: team `t1` has channel `c1` whose member listing
repeats `u1` and also contains `u2`; every other team or channel lookup
raises; resolution succeeds and returns a status and a username for every
id. -/
def envW : Env :=
  { listChannels := fun tid =>
      if tid = "t1" then
        Except.ok [{ id := "c1", display_name := some "General", name := some "general" }]
      else Except.error "channels failed",
    listMembers := fun cid =>
      if cid = "c1" then
        Except.ok [{ user_id := "u1" }, { user_id := "u1" }, { user_id := "u2" }]
      else Except.error "members failed",
    getStatuses := fun ids => Except.ok (ids.map (fun i => { user_id := i, status := "online" })),
    getUsers := fun ids => Except.ok (ids.map (fun i => { id := i, username := "name1" })) }

/-- Like `envW` but both bulk resolution calls raise. -/
def envRFail : Env :=
  { listChannels := envW.listChannels,
    listMembers := envW.listMembers,
    getStatuses := fun _ => Except.error "statuses failed",
    getUsers := fun _ => Except.error "users failed" }

/-- The good team of `envW`. -/
def teamW : Team := { id := "t1", name := "TeamOne" }

/-- A team whose channel listing raises in `envW`. -/
def teamBad : Team := { id := "t2", name := "TeamTwo" }

/-- The good channel of `envW`. -/
def chanW : Channel := { id := "c1", display_name := some "General", name := some "general" }

/-- A channel whose member listing raises in `envW`. -/
def chanBad : Channel := { id := "c2", display_name := some "Bad", name := some "bad" }

/-- A channel with an empty `display_name` and a plain `name`. -/
def chanEmptyDisplay : Channel := { id := "c3", display_name := some "", name := some "general" }

/-- A channel with neither `display_name` nor `name`. -/
def chanNameless : Channel := { id := "c4", display_name := none, name := none }

/-- A collected-record fixture used as concrete batched-writer input. -/
def rec0 : CollectedRecord :=
  { time := 0, team_id := "t", team_name := "tn", channel_id := "c",
    channel_name := "cn", user_id := "u" }

/-- Seven identical collected records: batch size 3 over them must give
3 commits. -/
def recs7 : List CollectedRecord := List.replicate 7 rec0

/-- DB oracle whose hypertable conversion raises an unrelated error. -/
def dbFatal : DbOracle :=
  { extensionRes := none, createTableRes := none,
    hypertableRes := some { sqlstate := "XX000", msg := "broken" },
    compressionRes := none, policyRes := none }

/-- DB oracle where the hypertable conversion reports "already a
hypertable" and the compression settings and policy both raise generic
errors. -/
def dbTolerant : DbOracle :=
  { extensionRes := some { sqlstate := "42501", msg := "insufficient privilege" },
    createTableRes := none,
    hypertableRes := some { sqlstate := "XX000", msg := "Table is Already a Hypertable" },
    compressionRes := some { sqlstate := "YY000", msg := "bad columns" },
    policyRes := some { sqlstate := "ZZ000", msg := "bad policy" } }

/-- DB oracle whose compression-policy registration reports a duplicate
policy. -/
def dbPolicyDup : DbOracle :=
  { extensionRes := none, createTableRes := none, hypertableRes := none,
    compressionRes := none,
    policyRes := some { sqlstate := "42710", msg := "policy exists" } }

/-- The events produced by the extension-enabling step of
`ensure_table_exists`. -/
def extEvs (db : DbOracle) : List DbEvent :=
  match db.extensionRes with
  | none => [DbEvent.logInfo Step.extension]
  | some _ => [DbEvent.logWarning Step.extension, DbEvent.rollback Step.extension]

/-- The record that `envW` collects for `u1` at capture instant 0. -/
def recW : CollectedRecord :=
  { time := 0, team_id := "t1", team_name := "TeamOne", channel_id := "c1",
    channel_name := "General", user_id := "u1" }

/-- The row that a run over `envW` at capture instant 5 inserts for `u1`. -/
def rowW : DbRow :=
  { time := 5, team_id := "t1", team_name := "TeamOne", channel_id := "c1",
    channel_name := "General", user_id := "u1", username := "name1",
    status := "online" }

/-! ### Lemmas about the batched writer -/

theorem insertedRows_write_loop (B : Nat) (um sm : List (String × String))
    (rs : List CollectedRecord) (c : Nat) :
    insertedRows (write_loop B um sm rs c) = rs.map (enrich um sm) := by
  induction rs generalizing c with
  | nil => rfl
  | cons r rs ih =>
    simp only [write_loop]
    split
    · simpa [insertedRows, List.filterMap_cons] using ih (c + 1)
    · simpa [insertedRows, List.filterMap_cons] using ih (c + 1)

theorem insertedRows_write_phase (B : Nat) (um sm : List (String × String))
    (records : List CollectedRecord) :
    insertedRows (write_phase B um sm records) = records.map (enrich um sm) := by
  have hloop := insertedRows_write_loop B um sm records 0
  by_cases h : 0 < records.length ∧ records.length % B ≠ 0
  · simp only [write_phase, if_pos h, insertedRows, List.filterMap_append] at hloop ⊢
    simpa using hloop
  · simp only [write_phase, if_neg h]
    exact hloop

theorem countCommits_write_loop (B : Nat) (hB : 0 < B) (um sm : List (String × String))
    (rs : List CollectedRecord) (c : Nat) :
    countCommits (write_loop B um sm rs c) = (c + rs.length) / B - c / B := by
  induction rs generalizing c with
  | nil => simp [write_loop, countCommits]
  | cons r rs ih =>
    have hle1 : c / B ≤ (c + 1) / B := Nat.div_le_div_right (by omega)
    have hle2 : (c + 1) / B ≤ (c + 1 + rs.length) / B := Nat.div_le_div_right (by omega)
    simp only [write_loop]
    by_cases h : (c + 1) % B = 0
    · have hdvd : B ∣ c + 1 := Nat.dvd_iff_mod_eq_zero.mpr h
      have hsucc : (c + 1) / B = c / B + 1 := Nat.succ_div_of_dvd hdvd
      have hrest := ih (c + 1)
      simp [h, countCommits, List.countP_cons, isCommitEv] at hrest ⊢
      rw [show c + (rs.length + 1) = c + 1 + rs.length from by omega]
      omega
    · have hdvd : ¬ B ∣ c + 1 := fun hd => h (Nat.dvd_iff_mod_eq_zero.mp hd)
      have hsucc : (c + 1) / B = c / B := Nat.succ_div_of_not_dvd hdvd
      have hrest := ih (c + 1)
      simp [h, countCommits, List.countP_cons, isCommitEv] at hrest ⊢
      rw [show c + (rs.length + 1) = c + 1 + rs.length from by omega]
      omega

theorem ceil_div_split (B N : Nat) (hB : 0 < B) :
    N / B + (if 0 < N ∧ N % B ≠ 0 then 1 else 0) = (N + B - 1) / B := by
  by_cases h0 : N = 0
  · subst h0
    simp [Nat.div_eq_of_lt (show B - 1 < B by omega)]
  · by_cases hr : N % B = 0
    · have hdvd : B ∣ N := Nat.dvd_iff_mod_eq_zero.mpr hr
      obtain ⟨q, rfl⟩ := hdvd
      rw [if_neg (by omega)]
      have h1 : B * q + B - 1 = B * q + (B - 1) := by omega
      rw [h1, Nat.mul_add_div hB, Nat.div_eq_of_lt (show B - 1 < B by omega),
        Nat.mul_div_cancel_left q hB]
    · rw [if_pos ⟨by omega, hr⟩]
      have h1 : B * (N / B) + N % B = N := Nat.div_add_mod N B
      have h2 : N % B < B := Nat.mod_lt _ hB
      have hBq : B * (N / B + 1) = B * (N / B) + B := by ring
      have h3 : N + B - 1 = B * (N / B + 1) + (N % B - 1) := by omega
      rw [h3, Nat.mul_add_div hB, Nat.div_eq_of_lt (show N % B - 1 < B by omega)]

/-! ### Lemmas about the snapshot collector -/

theorem listUnion_nil_left (ids : List String) : listUnion [] ids = ids := by
  simp [listUnion]

theorem collectChannel_err (env : Env) (now : Nat) (team : Team) (c : Channel)
    (e : ApiErr) (h : env.listMembers c.id = Except.error e) :
    collectChannel env now team c = ([], []) := by
  simp [collectChannel, h]

theorem collectChannel_ok_empty (env : Env) (now : Nat) (team : Team) (c : Channel)
    (members : List Member) (h : env.listMembers c.id = Except.ok members)
    (hids : (members.map Member.user_id).dedup = []) :
    collectChannel env now team c = ([], []) := by
  simp [collectChannel, h, hids]

theorem collectChannel_ok (env : Env) (now : Nat) (team : Team) (c : Channel)
    (members : List Member) (h : env.listMembers c.id = Except.ok members)
    (hids : (members.map Member.user_id).dedup ≠ []) :
    collectChannel env now team c =
      (((members.map Member.user_id).dedup).map (fun uid =>
        { time := now, team_id := team.id, team_name := team.name,
          channel_id := c.id, channel_name := channelNameOf c, user_id := uid }),
       (members.map Member.user_id).dedup) := by
  simp [collectChannel, h, hids]

theorem collectChannel_shape (env : Env) (now : Nat) (team : Team) (c : Channel)
    (r : CollectedRecord) (hr : r ∈ (collectChannel env now team c).1) :
    ∃ uid, r = { time := now, team_id := team.id, team_name := team.name,
                 channel_id := c.id, channel_name := channelNameOf c,
                 user_id := uid } := by
  rcases hms : env.listMembers c.id with e | members
  · rw [collectChannel_err env now team c e hms] at hr
    simp at hr
  · by_cases hids : (members.map Member.user_id).dedup = []
    · rw [collectChannel_ok_empty env now team c members hms hids] at hr
      simp at hr
    · rw [collectChannel_ok env now team c members hms hids] at hr
      obtain ⟨uid, _, rfl⟩ := List.mem_map.mp hr
      exact ⟨uid, rfl⟩

theorem collectTeam_err (env : Env) (now : Nat) (t : Team) (e : ApiErr)
    (h : env.listChannels t.id = Except.error e) :
    collectTeam env now t = ([], []) := by
  simp [collectTeam, h]

theorem collectChannels_shape (env : Env) (now : Nat) (team : Team) (cs : List Channel)
    (r : CollectedRecord) (hr : r ∈ (collectChannels env now team cs).1) :
    ∃ c ∈ cs, r ∈ (collectChannel env now team c).1 := by
  induction cs with
  | nil => simp [collectChannels] at hr
  | cons c cs ih =>
    simp only [collectChannels] at hr
    rcases List.mem_append.mp hr with h | h
    · exact ⟨c, by simp, h⟩
    · obtain ⟨c2, hc2, hm⟩ := ih h
      exact ⟨c2, by simp [hc2], hm⟩

theorem collect_shape (env : Env) (now : Nat) (teams : List Team)
    (r : CollectedRecord) (hr : r ∈ (collect env now teams).1) :
    ∃ t ∈ teams, r ∈ (collectTeam env now t).1 := by
  induction teams with
  | nil => simp [collect] at hr
  | cons t ts ih =>
    simp only [collect] at hr
    rcases List.mem_append.mp hr with h | h
    · exact ⟨t, by simp, h⟩
    · obtain ⟨t2, ht2, hm⟩ := ih h
      exact ⟨t2, by simp [ht2], hm⟩

theorem time_collect (env : Env) (now : Nat) (teams : List Team)
    (r : CollectedRecord) (hr : r ∈ (collect env now teams).1) : r.time = now := by
  obtain ⟨t, _, hrt⟩ := collect_shape env now teams r hr
  rcases hch : env.listChannels t.id with e | channels
  · rw [collectTeam_err env now t e hch] at hrt
    simp at hrt
  · rw [show collectTeam env now t = collectChannels env now t channels from by
      simp [collectTeam, hch]] at hrt
    obtain ⟨c, _, hrc⟩ := collectChannels_shape env now t channels r hrt
    obtain ⟨uid, rfl⟩ := collectChannel_shape env now t c r hrc
    rfl

theorem collectChannels_splice (env : Env) (now : Nat) (team : Team) (c : Channel)
    (h : collectChannel env now team c = ([], [])) (cs1 cs2 : List Channel) :
    collectChannels env now team (cs1 ++ c :: cs2) =
      collectChannels env now team (cs1 ++ cs2) := by
  induction cs1 with
  | nil => simp [collectChannels, h, listUnion_nil_left]
  | cons c1 cs1 ih => simp [collectChannels, ih]

theorem collect_splice (env : Env) (now : Nat) (t : Team)
    (h : collectTeam env now t = ([], [])) (ts1 ts2 : List Team) :
    collect env now (ts1 ++ t :: ts2) = collect env now (ts1 ++ ts2) := by
  induction ts1 with
  | nil => simp [collect, h, listUnion_nil_left]
  | cons t1 ts1 ih => simp [collect, ih]

/-! ### Lemmas about the paginator -/

theorem get_all_aux_spec (fetch : Nat → List Member) (m : Nat) :
    ∀ page fuel, (∀ i, i < m → fetch (page + i) ≠ []) → fetch (page + m) = [] →
    m < fuel →
    get_all_channel_members_aux fetch fuel page =
      (((List.range m).map (fun i => fetch (page + i))).flatten, m + 1) := by
  induction m with
  | zero =>
    intro page fuel h1 h2 h3
    rcases fuel with _ | f
    · omega
    · simp [get_all_channel_members_aux, show fetch page = [] from by simpa using h2]
  | succ m ih =>
    intro page fuel h1 h2 h3
    rcases fuel with _ | f
    · omega
    · have hne : fetch page ≠ [] := by simpa using h1 0 (by omega)
      have hrec := ih (page + 1) f
        (fun i hi => by
          have hx := h1 (i + 1) (by omega)
          rwa [show page + (i + 1) = page + 1 + i from by omega] at hx)
        (by rwa [show page + (m + 1) = page + 1 + m from by omega] at h2)
        (by omega)
      simp only [get_all_channel_members_aux]
      rw [if_neg (by simpa [List.isEmpty_iff] using hne), hrec]
      refine Prod.ext ?_ rfl
      simp only [List.range_succ_eq_map, List.map_cons, List.map_map, List.flatten_cons,
        Nat.add_zero, Function.comp]
      congr 2
      exact List.map_congr_left fun i _ => by
        congr 1
        omega

/-! ### Lemmas about the schema provisioner -/

theorem provisionTail_ok (db : DbOracle) (evs : List DbEvent) :
    (provisionTail db evs).2 = Except.ok () := rfl

theorem provisionTail_compression_mem (db : DbOracle) (evs : List DbEvent) (e : PgError)
    (h : db.compressionRes = some e) :
    DbEvent.logWarning Step.compression ∈ (provisionTail db evs).1
    ∧ DbEvent.rollback Step.compression ∈ (provisionTail db evs).1 := by
  constructor <;> simp [provisionTail, h]

theorem provisionTail_policy_mem (db : DbOracle) (evs : List DbEvent) (e : PgError)
    (h : db.policyRes = some e) (hpe : isPolicyExists e = false) :
    DbEvent.logWarning Step.policy ∈ (provisionTail db evs).1
    ∧ DbEvent.rollback Step.policy ∈ (provisionTail db evs).1 := by
  constructor <;> simp [provisionTail, h, hpe]

theorem provisionTail_policy_dup_mem (db : DbOracle) (evs : List DbEvent) (e : PgError)
    (h : db.policyRes = some e) (hpe : isPolicyExists e = true) :
    DbEvent.logInfo Step.policy ∈ (provisionTail db evs).1 := by
  simp [provisionTail, h, hpe]

theorem ensure_shape_tolerated (db : DbOracle) (hct : db.createTableRes = none)
    (htol : hypertableTolerated db = true) :
    ensure_table_exists db =
      provisionTail db (extEvs db ++ [DbEvent.logInfo Step.createTable]
        ++ [DbEvent.logInfo Step.hypertable]) := by
  rcases hht : db.hypertableRes with _ | e0
  · simp [ensure_table_exists, hct, hht, extEvs]
  · have ha : isAlreadyHypertable e0 = true := by
      simpa [hypertableTolerated, hht] using htol
    simp [ensure_table_exists, hct, hht, ha, extEvs]

/-! ### The claims -/

/-- C1: every row inserted by a run carries the single capture instant
`now` taken once at the start of the run, so all records written in one
invocation share the identical capture time. -/
theorem capture_time_uniform (env : Env) (now : Nat) (teams : List Team) (B : Nat)
    (row : DbRow) (h : row ∈ insertedRows (runMain env now teams B)) :
    row.time = now := by
  have hrows : insertedRows (runMain env now teams B)
      = ((collect env now teams).1).map
          (enrich (resolveUsers env (collect env now teams).2).2.1
            (resolveUsers env (collect env now teams).2).2.2) := by
    simp [runMain, insertedRows_write_phase]
  rw [hrows] at h
  obtain ⟨r, hr, rfl⟩ := List.mem_map.mp h
  have ht := time_collect env now teams r hr
  simpa [enrich] using ht

/-- Witness for C1: a concrete one-team run over `envW` at instant 5
inserts `rowW`, whose timestamp is 5. -/
theorem capture_time_uniform_witness :
    rowW ∈ insertedRows (runMain envW 5 [teamW] 100) ∧ rowW.time = 5 :=
  ⟨by decide, capture_time_uniform envW 5 [teamW] 100 rowW (by decide)⟩

/-- C2: with positive batch size B, the write phase issues exactly
ceil(N/B) commits over N records — one after every B-th insertion plus a
final commit for a non-zero remainder — and zero commits when N = 0. -/
theorem writer_commit_count (B : Nat) (um sm : List (String × String))
    (records : List CollectedRecord) (hB : 0 < B) :
    countCommits (write_phase B um sm records) = (records.length + B - 1) / B
    ∧ (records = [] → countCommits (write_phase B um sm records) = 0) := by
  have hloop2 : countCommits (write_loop B um sm records 0) = records.length / B := by
    simpa using countCommits_write_loop B hB um sm records 0
  have hceil := ceil_div_split B records.length hB
  constructor
  · by_cases h : 0 < records.length ∧ records.length % B ≠ 0
    · have hsplit : write_phase B um sm records
          = write_loop B um sm records 0 ++ [WriteEvent.commitW] := by
        simp only [write_phase]
        rw [if_pos h]
      have hcount : countCommits (write_phase B um sm records)
          = countCommits (write_loop B um sm records 0) + 1 := by
        rw [hsplit]
        simp [countCommits, List.countP_append, isCommitEv]
      rw [hcount, hloop2, ← hceil, if_pos h]
    · have hsplit : write_phase B um sm records = write_loop B um sm records 0 := by
        simp only [write_phase]
        rw [if_neg h]
      rw [hsplit, hloop2, ← hceil, if_neg h]
      rfl
  · intro h
    subst h
    simp [write_phase, write_loop, countCommits]

/-- Witness for C2: batch size 3 over 7 records gives exactly 3 commits. -/
theorem writer_commit_count_witness :
    0 < 3 ∧ countCommits (write_phase 3 [] [] recs7) = 3 :=
  ⟨by decide, by
    have h := (writer_commit_count 3 [] [] recs7 (by decide)).1
    rwa [show (recs7.length + 3 - 1) / 3 = 3 from by decide] at h⟩

/-- C10: the write phase inserts exactly the enrichment of each collected
record in order, and the enrichment sets only `username` and `status`;
the six fields captured during collection pass through unchanged. -/
theorem write_enrichment_frame (B : Nat) (um sm : List (String × String))
    (records : List CollectedRecord) :
    insertedRows (write_phase B um sm records) = records.map (enrich um sm)
    ∧ ∀ r : CollectedRecord,
        (enrich um sm r).time = r.time
        ∧ (enrich um sm r).team_id = r.team_id
        ∧ (enrich um sm r).team_name = r.team_name
        ∧ (enrich um sm r).channel_id = r.channel_id
        ∧ (enrich um sm r).channel_name = r.channel_name
        ∧ (enrich um sm r).user_id = r.user_id
        ∧ (enrich um sm r).username = dictGet um r.user_id "unknown"
        ∧ (enrich um sm r).status = dictGet sm r.user_id "unknown" :=
  ⟨insertedRows_write_phase B um sm records,
   fun _ => ⟨rfl, rfl, rfl, rfl, rfl, rfl, rfl, rfl⟩⟩

/-- C3: a failing channel listing removes exactly that team from the
collection while all other teams are processed unchanged, and a failing
member listing yields no output for that channel while all other channels
and teams are processed unchanged. -/
theorem per_team_channel_failure_isolation (env : Env) (now : Nat)
    (t : Team) (ts1 ts2 : List Team) (e : ApiErr)
    (ht : env.listChannels t.id = Except.error e)
    (team : Team) (c : Channel) (cs1 cs2 : List Channel) (e2 : ApiErr)
    (hc : env.listMembers c.id = Except.error e2) :
    collect env now (ts1 ++ t :: ts2) = collect env now (ts1 ++ ts2)
    ∧ collectChannel env now team c = ([], [])
    ∧ collectChannels env now team (cs1 ++ c :: cs2)
        = collectChannels env now team (cs1 ++ cs2) := by
  have hchan := collectChannel_err env now team c e2 hc
  exact ⟨collect_splice env now t (collectTeam_err env now t e ht) ts1 ts2,
    hchan, collectChannels_splice env now team c hchan cs1 cs2⟩

/-- Witness for C3: in `envW` the failing team `t2` and the failing
channel `c2` drop out without affecting the good team and channel. -/
theorem per_team_channel_failure_isolation_witness :
    collect envW 0 ([teamW] ++ teamBad :: []) = collect envW 0 ([teamW] ++ [])
    ∧ collectChannel envW 0 teamW chanBad = ([], [])
    ∧ collectChannels envW 0 teamW ([chanW] ++ chanBad :: [])
        = collectChannels envW 0 teamW ([chanW] ++ []) :=
  per_team_channel_failure_isolation envW 0 teamBad [teamW] [] "channels failed" rfl
    teamW chanBad [chanW] [] "members failed" rfl

/-- C9: for a successfully listed channel, each distinct user id yields
exactly one record even when the member listing repeats it, an id absent
from the listing yields none, and a channel with no distinct ids
contributes no records and no ids to the global user set. -/
theorem channel_dedup_records (env : Env) (now : Nat) (team : Team) (c : Channel)
    (members : List Member) (h : env.listMembers c.id = Except.ok members) :
    ((members.map Member.user_id).dedup = [] → collectChannel env now team c = ([], []))
    ∧ (∀ uid, uid ∈ members.map Member.user_id →
        (((collectChannel env now team c).1).map CollectedRecord.user_id).count uid = 1)
    ∧ (∀ uid, uid ∉ members.map Member.user_id →
        (((collectChannel env now team c).1).map CollectedRecord.user_id).count uid = 0) := by
  by_cases hids : (members.map Member.user_id).dedup = []
  · rw [collectChannel_ok_empty env now team c members h hids]
    refine ⟨fun _ => rfl, ?_, ?_⟩
    · intro uid hmem
      exfalso
      have hd : uid ∈ (members.map Member.user_id).dedup := List.mem_dedup.mpr hmem
      rw [hids] at hd
      simp at hd
    · intro uid _
      simp
  · have hmap : (((collectChannel env now team c).1).map CollectedRecord.user_id)
        = (members.map Member.user_id).dedup := by
      rw [collectChannel_ok env now team c members h hids, List.map_map]
      exact (List.map_congr_left fun a _ => rfl).trans (List.map_id _)
    refine ⟨fun hcontra => absurd hcontra hids, ?_, ?_⟩
    · intro uid hmem
      rw [hmap]
      exact List.count_eq_one_of_mem (List.nodup_dedup _) (List.mem_dedup.mpr hmem)
    · intro uid hmem
      rw [hmap]
      exact List.count_eq_zero.mpr (fun hc2 => hmem (List.mem_dedup.mp hc2))

/-- Witness for C9 at `envW`: the listing repeats `u1` yet `u1` gets one
record; an unseen id gets none. -/
theorem channel_dedup_records_witness :
    (((collectChannel envW 0 teamW chanW).1).map CollectedRecord.user_id).count "u1" = 1
    ∧ (((collectChannel envW 0 teamW chanW).1).map CollectedRecord.user_id).count "zz" = 0 :=
  ⟨(channel_dedup_records envW 0 teamW chanW
      [{ user_id := "u1" }, { user_id := "u1" }, { user_id := "u2" }] rfl).2.1
      "u1" (by decide),
   (channel_dedup_records envW 0 teamW chanW
      [{ user_id := "u1" }, { user_id := "u1" }, { user_id := "u2" }] rfl).2.2
      "zz" (by decide)⟩

/-- C8 counterexample: a channel whose `display_name` is present but
empty is stored under its `name`, not its `display_name` — the claim's
"display_name when present" fails at this input. -/
theorem channel_name_empty_display_cex :
    channelNameOf chanEmptyDisplay = "general"
    ∧ chanEmptyDisplay.display_name = some ""
    ∧ channelNameOf chanEmptyDisplay ≠ "" :=
  ⟨rfl, rfl, by decide⟩

/-- C8 (amended): the stored channel name is `display_name` when present
and non-empty; otherwise `name` when present; otherwise "unknown" — and
every record of a channel stores exactly this resolved name. -/
theorem channel_name_fallback (env : Env) (now : Nat) (team : Team) (c : Channel) :
    (∀ r ∈ (collectChannel env now team c).1, r.channel_name = channelNameOf c)
    ∧ (∀ s, c.display_name = some s → s ≠ "" → channelNameOf c = s)
    ∧ ((c.display_name = none ∨ c.display_name = some "") →
        (∀ n, c.name = some n → channelNameOf c = n)
        ∧ (c.name = none → channelNameOf c = "unknown")) := by
  refine ⟨?_, ?_, ?_⟩
  · intro r hr
    obtain ⟨uid, rfl⟩ := collectChannel_shape env now team c r hr
    rfl
  · intro s hs hne
    simp [channelNameOf, pyOrStr, hs, hne]
  · intro hd
    constructor
    · intro n hn
      rcases hd with h | h <;> simp [channelNameOf, pyOrStr, h, hn]
    · intro hn
      rcases hd with h | h <;> simp [channelNameOf, pyOrStr, h, hn]

/-- Witness for C8 at concrete channels: non-empty display name wins,
empty display name falls back to the name, a nameless channel stores
"unknown", and the collected record stores the resolved name. -/
theorem channel_name_fallback_witness :
    channelNameOf chanW = "General"
    ∧ channelNameOf chanEmptyDisplay = "general"
    ∧ channelNameOf chanNameless = "unknown"
    ∧ recW.channel_name = channelNameOf chanW :=
  ⟨(channel_name_fallback envW 0 teamW chanW).2.1 "General" rfl (by decide),
   ((channel_name_fallback envW 0 teamW chanEmptyDisplay).2.2 (Or.inr rfl)).1 "general" rfl,
   ((channel_name_fallback envW 0 teamW chanNameless).2.2 (Or.inl rfl)).2 rfl,
   (channel_name_fallback envW 0 teamW chanW).1 recW (by decide)⟩

/-- C7 counterexample: a run whose collection yields no user ids performs
no bulk lookups at all, contradicting "exactly one of each per run". -/
theorem resolver_zero_lookups_cex :
    (resolveUsers envW ((collect envW 0 []).2)).1 = ([] : List ApiEvent) := rfl

/-- C7 (amended): for a run with a non-empty global user set the resolver
issues exactly one bulk status lookup with the full id list and — unless
that call raises — exactly one bulk identity lookup with the same list
after the configured delay; an empty set triggers no lookups. -/
theorem resolver_bulk_calls (env : Env) (ids : List String) (hne : ids ≠ []) :
    (∀ e, env.getStatuses ids = Except.error e →
        (resolveUsers env ids).1 = [ApiEvent.statusCall ids])
    ∧ (∀ sts, env.getStatuses ids = Except.ok sts →
        (resolveUsers env ids).1
          = [ApiEvent.statusCall ids, ApiEvent.sleepEv, ApiEvent.usersCall ids])
    ∧ (resolveUsers env []).1 = [] := by
  have hemp : ids.isEmpty = false := by
    cases ids with
    | nil => exact absurd rfl hne
    | cons a l => rfl
  refine ⟨?_, ?_, by simp [resolveUsers]⟩
  · intro e he
    simp [resolveUsers, hemp, he]
  · intro sts hs
    rcases hu : env.getUsers ids with e | us
    · simp [resolveUsers, hemp, hs, hu]
    · simp [resolveUsers, hemp, hs, hu]

/-- Witness for C7: one id in play — a failing status call stops after
the status lookup; a successful one issues status, sleep, then users. -/
theorem resolver_bulk_calls_witness :
    (resolveUsers envRFail ["u1"]).1 = [ApiEvent.statusCall ["u1"]]
    ∧ (resolveUsers envW ["u1"]).1
        = [ApiEvent.statusCall ["u1"], ApiEvent.sleepEv, ApiEvent.usersCall ["u1"]]
    ∧ (resolveUsers envW []).1 = [] :=
  ⟨(resolver_bulk_calls envRFail ["u1"] (by decide)).1 "statuses failed" rfl,
   (resolver_bulk_calls envW ["u1"] (by decide)).2.1
     [{ user_id := "u1", status := "online" }] rfl,
   (resolver_bulk_calls envW ["u1"] (by decide)).2.2⟩

set_option maxRecDepth 4000 in
/-- C6 counterexample: for a channel with 250 members at page size 200
the loop issues three fetch calls — pages 0 and 1 with data and a third
returning the empty page — not two. -/
theorem paginator_fetch_call_count_cex :
    (get_all_channel_members fetch250 10).2 = 3
    ∧ (get_all_channel_members fetch250 10).2 ≠ 2 := by
  decide

set_option maxRecDepth 4000 in
/-- C6 (amended): on the 250-member example the paginator returns all
250 items in 3 fetch calls, and in general it fetches pages 0,1,…
until the first empty batch, returning the concatenation of the
non-empty batches after m+1 calls where page m is the first empty one. -/
theorem paginator_contract :
    ((get_all_channel_members fetch250 10).1.length = 250
      ∧ (get_all_channel_members fetch250 10).2 = 3)
    ∧ ∀ (fetch : Nat → List Member) (m fuel : Nat),
        (∀ i, i < m → fetch i ≠ []) → fetch m = [] → m < fuel →
        get_all_channel_members fetch fuel =
          (((List.range m).map fetch).flatten, m + 1) := by
  refine ⟨⟨by decide, by decide⟩, ?_⟩
  intro fetch m fuel h1 h2 h3
  have h := get_all_aux_spec fetch m 0 fuel
    (fun i hi => by simpa using h1 i hi) (by simpa using h2) h3
  simpa [get_all_channel_members] using h

/-- Witness for C6's general contract at a one-page channel. -/
theorem paginator_contract_witness :
    get_all_channel_members fetchOne 5 = ([{ user_id := "u1" }], 2) := by
  have h := (paginator_contract).2 fetchOne 1 5
    (fun i hi => by
      have hi0 : i = 0 := by omega
      subst hi0
      decide)
    (by decide) (by decide)
  have h2 : ((((List.range 1).map fetchOne).flatten : List Member), (1 : Nat) + 1)
      = (([{ user_id := "u1" }] : List Member), (2 : Nat)) := by decide
  exact h.trans h2

/-- C4: if the bulk status or identity lookup raises, the resolver yields
empty maps, the run still writes every collected record, every written
row carries the "unknown" sentinel for username and status, and the row
count equals what a successful resolution would have written. -/
theorem resolution_failure_degrades_to_unknown (env : Env) (now B : Nat)
    (teams : List Team) (records : List CollectedRecord) (gids : List String)
    (h : collect env now teams = (records, gids))
    (hfail : (∃ e, env.getStatuses gids = Except.error e)
      ∨ (∃ e, env.getUsers gids = Except.error e)) :
    (resolveUsers env gids).2.1 = []
    ∧ (resolveUsers env gids).2.2 = []
    ∧ (∀ row ∈ insertedRows
          (write_phase B (resolveUsers env gids).2.1 (resolveUsers env gids).2.2 records),
        row.username = "unknown" ∧ row.status = "unknown")
    ∧ (insertedRows
          (write_phase B (resolveUsers env gids).2.1 (resolveUsers env gids).2.2
            records)).length
        = records.length
    ∧ (∀ um sm : List (String × String),
        (insertedRows (write_phase B um sm records)).length = records.length) := by
  have hmaps : (resolveUsers env gids).2.1 = [] ∧ (resolveUsers env gids).2.2 = [] := by
    by_cases hemp : gids.isEmpty
    · simp [resolveUsers, hemp]
    · rcases hst : env.getStatuses gids with e | sts
      · simp [resolveUsers, hemp, hst]
      · rcases hus : env.getUsers gids with e | us
        · simp [resolveUsers, hemp, hst, hus]
        · exfalso
          rcases hfail with ⟨e, he⟩ | ⟨e, he⟩
          · rw [he] at hst
            cases hst
          · rw [he] at hus
            cases hus
  refine ⟨hmaps.1, hmaps.2, ?_, ?_, ?_⟩
  · intro row hrow
    rw [insertedRows_write_phase] at hrow
    obtain ⟨r, _, rfl⟩ := List.mem_map.mp hrow
    constructor <;> simp [enrich, dictGet, hmaps.1, hmaps.2]
  · rw [insertedRows_write_phase]
    simp
  · intro um sm
    rw [insertedRows_write_phase]
    simp

/-- Witness for C4: over `envRFail` the status call raises, the username
map comes back empty, and the run still writes both collected records. -/
theorem resolution_failure_degrades_to_unknown_witness :
    (resolveUsers envRFail (collect envRFail 5 [teamW]).2).2.1 = []
    ∧ (insertedRows (write_phase 100
          (resolveUsers envRFail (collect envRFail 5 [teamW]).2).2.1
          (resolveUsers envRFail (collect envRFail 5 [teamW]).2).2.2
          (collect envRFail 5 [teamW]).1)).length
        = ((collect envRFail 5 [teamW]).1).length :=
  ⟨(resolution_failure_degrades_to_unknown envRFail 5 100 [teamW]
      (collect envRFail 5 [teamW]).1 (collect envRFail 5 [teamW]).2 rfl
      (Or.inl ⟨"statuses failed", rfl⟩)).1,
   (resolution_failure_degrades_to_unknown envRFail 5 100 [teamW]
      (collect envRFail 5 [teamW]).1 (collect envRFail 5 [teamW]).2 rfl
      (Or.inl ⟨"statuses failed", rfl⟩)).2.2.2.1⟩

/-- C5: a hypertable-conversion error other than "already a hypertable"
is re-raised and aborts provisioning; with a tolerated conversion the run
commits, and compression-settings or policy errors are logged with a
warning and rolled back without aborting, while a duplicate policy is
logged as success. -/
theorem provisioning_error_tiering (db : DbOracle) (hct : db.createTableRes = none) :
    (∀ e, db.hypertableRes = some e → isAlreadyHypertable e = false →
        (ensure_table_exists db).2 = Except.error e)
    ∧ (hypertableTolerated db = true →
        (ensure_table_exists db).2 = Except.ok ()
        ∧ (∀ e, db.compressionRes = some e →
            DbEvent.logWarning Step.compression ∈ (ensure_table_exists db).1
            ∧ DbEvent.rollback Step.compression ∈ (ensure_table_exists db).1)
        ∧ (∀ e, db.policyRes = some e → isPolicyExists e = false →
            DbEvent.logWarning Step.policy ∈ (ensure_table_exists db).1
            ∧ DbEvent.rollback Step.policy ∈ (ensure_table_exists db).1)
        ∧ (∀ e, db.policyRes = some e → isPolicyExists e = true →
            DbEvent.logInfo Step.policy ∈ (ensure_table_exists db).1)) := by
  constructor
  · intro e he hfalse
    simp [ensure_table_exists, hct, he, hfalse]
  · intro htol
    have hshape := ensure_shape_tolerated db hct htol
    refine ⟨?_, ?_, ?_, ?_⟩
    · rw [hshape]
      exact provisionTail_ok db _
    · intro e hce
      rw [hshape]
      exact provisionTail_compression_mem db _ e hce
    · intro e hpe hfalse
      rw [hshape]
      exact provisionTail_policy_mem db _ e hpe hfalse
    · intro e hpe htrue
      rw [hshape]
      exact provisionTail_policy_dup_mem db _ e hpe htrue

/-- Witness for C5: `dbFatal` aborts with its hypertable error;
`dbTolerant` commits while logging and rolling back the compression and
policy failures; `dbPolicyDup` logs the duplicate policy as success. -/
theorem provisioning_error_tiering_witness :
    (ensure_table_exists dbFatal).2 = Except.error { sqlstate := "XX000", msg := "broken" }
    ∧ (ensure_table_exists dbTolerant).2 = Except.ok ()
    ∧ DbEvent.logWarning Step.compression ∈ (ensure_table_exists dbTolerant).1
    ∧ DbEvent.rollback Step.compression ∈ (ensure_table_exists dbTolerant).1
    ∧ DbEvent.logWarning Step.policy ∈ (ensure_table_exists dbTolerant).1
    ∧ DbEvent.logInfo Step.policy ∈ (ensure_table_exists dbPolicyDup).1 :=
  ⟨(provisioning_error_tiering dbFatal rfl).1 { sqlstate := "XX000", msg := "broken" }
      rfl (by decide),
   ((provisioning_error_tiering dbTolerant rfl).2 (by decide)).1,
   (((provisioning_error_tiering dbTolerant rfl).2 (by decide)).2.1
      { sqlstate := "YY000", msg := "bad columns" } rfl).1,
   (((provisioning_error_tiering dbTolerant rfl).2 (by decide)).2.1
      { sqlstate := "YY000", msg := "bad columns" } rfl).2,
   ((((provisioning_error_tiering dbTolerant rfl).2 (by decide)).2.2.1
      { sqlstate := "ZZ000", msg := "bad policy" } rfl (by decide))).1,
   ((provisioning_error_tiering dbPolicyDup rfl).2 (by decide)).2.2.2
      { sqlstate := "42710", msg := "policy exists" } rfl (by decide)⟩

end Warrn
